import Mathlib

/-!
Verification of the mindpm session/task core.

This file gives a shallow embedding, in Lean 4, of the parts of the mindpm
store that carry real invariants:

* the task rows and the two task-update handlers (`updateTask` in
  `src/server/routes.ts` and the `update_task` MCP tool in `src/tools`),
* the task listing and "next tasks" queries and their orderings,
* the task-history recording performed by the HTTP handlers,
* the session reconciliation engine (`src/tools/auto-session.ts` and the
  `start_session` tool in `src/tools/sessions.ts`) with its per-process gate,
* the schema migrations (`runMigrations` in `src/db/schema.ts`),
* transactional task deletion (`deleteTask` in `src/server/routes.ts`).

Modelling conventions:

* SQLite `DATETIME` strings (ISO format, lexicographically ordered) are
  modelled as `Nat` timestamps; the `'1970-01-01'` epoch sentinel is `0`.
* JSON-encoded list columns (`tags`, `blocked_by`, `tasks_worked_on`,
  `decisions_made`) are modelled in decoded form, `Option (List String)`,
  with `none` for SQL `NULL`; the encode/decode boundary is elided.
* `generateId()` (random 8-hex token) is modelled by a deterministic
  fresh-id supply where an id matters for state equality.
* SQL `ORDER BY` is modelled by `List.insertionSort` with the relation the
  `ORDER BY` clause denotes; SQLite leaves the order of equal keys
  unspecified, and no theorem below depends on the tie order.
-/

/-- A row of the `tasks` table (schema in `src/db/schema.ts`).  Enumerated
columns (`status`, `priority`) stay `String`s, as in the code; the CHECK
constraints restrict their values. -/
structure TaskRow where
  id : String
  project_id : String
  seq : Option Nat := none
  title : String := ""
  description : Option String := none
  status : String := "todo"
  priority : String := "medium"
  tags : Option (List String) := none
  parent_task_id : Option String := none
  blocked_by : Option (List String) := none
  created_at : Nat := 0
  updated_at : Nat := 0
  completed_at : Option Nat := none
deriving DecidableEq, Repr

/-- A row of the `task_history` table.  The random row id (`generateId`) is
omitted: no claim, and no piece of control flow, ever reads it back. -/
structure TaskHistoryRow where
  task_id : String
  event : String
  old_value : Option String := none
  new_value : Option String := none
  created_at : Nat := 0
deriving DecidableEq, Repr

/-- The optional fields of a task-update request body (both the PATCH route
and the `update_task` tool accept the same shape).  `none` models an absent
key (`undefined` in the handlers); list fields model JSON arrays. -/
structure UpdateBody where
  title : Option String := none
  description : Option String := none
  status : Option String := none
  priority : Option String := none
  tags : Option (List String) := none
  blocked_by : Option (List String) := none
deriving DecidableEq, Repr

/-- The fields of a task-creation request body. -/
structure CreateBody where
  title : String
  description : Option String := none
  priority : Option String := none
  tags : Option (List String) := none
  parent_task_id : Option String := none
deriving DecidableEq, Repr

/-- The JSON text `JSON.stringify ({status, priority})` recorded as the
`new_value` of a `created` history event (`routes.ts` line 153). -/
def jsonStatusPriority (status priority : String) : String :=
  "\x7b\"status\":\"" ++ status ++ "\",\"priority\":\"" ++ priority ++ "\"\x7d"

/-- The `title = ?` clause of the update SET-list (pushed when the body
carries a title). -/
def applyTitle (v : Option String) (t : TaskRow) : TaskRow :=
  match v with
  | some v => { t with title := v }
  | none => t

/-- The `description = ?` clause. -/
def applyDescription (v : Option String) (t : TaskRow) : TaskRow :=
  match v with
  | some v => { t with description := some v }
  | none => t

/-- The `status = ?` clause as pushed by `updateTask` in
`src/server/routes.ts` (lines 172-180): alongside the status it always pushes
a `completed_at` clause, `CURRENT_TIMESTAMP` for `done` and `NULL` for
anything else. -/
def routesApplyStatus (v : Option String) (now : Nat) (t : TaskRow) : TaskRow :=
  match v with
  | some v =>
    if v = "done" then { t with status := v, completed_at := some now }
    else { t with status := v, completed_at := none }
  | none => t

/-- The `status = ?` clause as pushed by the `update_task` MCP tool handler
(lines 216-222 of its source): `completed_at` is stamped for `done` and left
alone otherwise — no clearing clause exists on this path. -/
def toolApplyStatus (v : Option String) (now : Nat) (t : TaskRow) : TaskRow :=
  match v with
  | some v =>
    if v = "done" then { t with status := v, completed_at := some now }
    else { t with status := v }
  | none => t

/-- The `priority = ?` clause. -/
def applyPriority (v : Option String) (t : TaskRow) : TaskRow :=
  match v with
  | some v => { t with priority := v }
  | none => t

/-- The `tags = ?` clause. -/
def applyTags (v : Option (List String)) (t : TaskRow) : TaskRow :=
  match v with
  | some v => { t with tags := some v }
  | none => t

/-- The `blocked_by = ?` clause (both handlers, identically): store the
list, and push `status = 'blocked'` when the list is non-empty and the body
carries no explicit status. -/
def applyBlockedBy (v : Option (List String)) (bodyStatus : Option String)
    (t : TaskRow) : TaskRow :=
  match v with
  | some v =>
    let t := { t with blocked_by := some v }
    if v ≠ [] ∧ bodyStatus = none then { t with status := "blocked" } else t
  | none => t

/-- Effect of the SET-list built by `updateTask` in `src/server/routes.ts`
(lines 167-200) on one task row, followed by the `trg_tasks_updated_at`
trigger bumping `updated_at` (the handlers never set it themselves).
The clauses are applied in the order the handler pushes them; no column is
ever pushed twice, because `status = 'blocked'` is pushed only when the body
carries no `status`. -/
def routesApplyTaskUpdate (body : UpdateBody) (now : Nat) (existing : TaskRow) : TaskRow :=
  { applyBlockedBy body.blocked_by body.status
      (applyTags body.tags
        (applyPriority body.priority
          (routesApplyStatus body.status now
            (applyDescription body.description
              (applyTitle body.title existing))))) with updated_at := now }

/-- Effect of the SET-list built by the `update_task` MCP tool handler
(`registerTaskTools`) on one task row.  It differs from the HTTP route in
exactly one place: when the body sets a non-`done` status, the handler emits
no `completed_at` clause at all, so the stored `completed_at` survives. -/
def toolApplyTaskUpdate (body : UpdateBody) (now : Nat) (existing : TaskRow) : TaskRow :=
  { applyBlockedBy body.blocked_by body.status
      (applyTags body.tags
        (applyPriority body.priority
          (toolApplyStatus body.status now
            (applyDescription body.description
              (applyTitle body.title existing))))) with updated_at := now }

/-- The `status_changed` record appended by `updateTask` (`routes.ts` lines
203-205) when the body carries a status different from the stored one.
`recordTaskHistory`'s own body is absent from this snapshot; its append-one-
row behaviour is modelled from the spec (History Recorder, spec section 4.3). -/
def statusEvent (body : UpdateBody) (existing : TaskRow) (now : Nat) :
    List TaskHistoryRow :=
  match body.status with
  | some v =>
    if v ≠ existing.status then
      [{ task_id := existing.id, event := "status_changed",
         old_value := some existing.status, new_value := some v, created_at := now }]
    else []
  | none => []

/-- The `priority_changed` record appended by `updateTask` (lines 206-208). -/
def priorityEvent (body : UpdateBody) (existing : TaskRow) (now : Nat) :
    List TaskHistoryRow :=
  match body.priority with
  | some v =>
    if v ≠ existing.priority then
      [{ task_id := existing.id, event := "priority_changed",
         old_value := some existing.priority, new_value := some v, created_at := now }]
    else []
  | none => []

/-- The `title_changed` record appended by `updateTask` (lines 209-211). -/
def titleEvent (body : UpdateBody) (existing : TaskRow) (now : Nat) :
    List TaskHistoryRow :=
  match body.title with
  | some v =>
    if v ≠ existing.title then
      [{ task_id := existing.id, event := "title_changed",
         old_value := some existing.title, new_value := some v, created_at := now }]
    else []
  | none => []

/-- History rows appended by `updateTask` in `src/server/routes.ts`
(lines 202-211), in call order: one per tracked field whose supplied value
differs from the stored one. -/
def routesUpdateEvents (body : UpdateBody) (existing : TaskRow) (now : Nat) :
    List TaskHistoryRow :=
  statusEvent body existing now ++ priorityEvent body existing now ++
    titleEvent body existing now

/-- The tasks table together with the task-history table: the slice of the
store the task handlers read and write. -/
structure TaskStore where
  tasks : List TaskRow
  history : List TaskHistoryRow
deriving DecidableEq, Repr

/-- SQL `UPDATE tasks SET ... WHERE id = ?`: rewrite the matching row in
place, leave every other row untouched. -/
def updateRowById (tasks : List TaskRow) (tid : String) (f : TaskRow → TaskRow) :
    List TaskRow :=
  tasks.map (fun t => if t.id = tid then f t else t)

/-- The PATCH `/api/tasks/:id` handler (`updateTask`, `src/server/routes.ts`
lines 157-215): 404 when the id does not resolve, 400 when the body carries
no field; otherwise apply the SET list and append the history rows. -/
def routesUpdateTask (s : TaskStore) (tid : String) (body : UpdateBody) (now : Nat) :
    TaskStore :=
  match s.tasks.find? (fun t => t.id = tid) with
  | none => s
  | some existing =>
    if body = {} then s
    else
      { tasks := updateRowById s.tasks tid (routesApplyTaskUpdate body now),
        history := s.history ++ routesUpdateEvents body existing now }

/-- The `update_task` MCP tool handler: same resolution and guard as the
route, but the handler contains no `recordTaskHistory` call, so the history
table is untouched. -/
def toolUpdateTask (s : TaskStore) (tid : String) (body : UpdateBody) (now : Nat) :
    TaskStore :=
  match s.tasks.find? (fun t => t.id = tid) with
  | none => s
  | some _ =>
    if body = {} then s
    else { s with tasks := updateRowById s.tasks tid (toolApplyTaskUpdate body now) }

/-- SQL `SELECT COALESCE(MAX(seq), 0) + 1 FROM tasks WHERE project_id = ?`:
`MAX` ignores NULL `seq` values. -/
def nextSeq (tasks : List TaskRow) (pid : String) : Nat :=
  (((tasks.filter (fun t => t.project_id = pid)).filterMap (fun t => t.seq)).foldl
    max 0) + 1

/-- The POST `/api/projects/:pid/tasks` handler (`createTask`,
`src/server/routes.ts` lines 117-155): insert the row with the next per-project
`seq` and record exactly one `created` history event.  The recorded
`new_value` reproduces the handler verbatim, including its quirk of storing
the priority in the `status` slot whenever the priority is not `medium`. -/
def routesCreateTask (s : TaskStore) (pid newId : String) (body : CreateBody) (now : Nat) :
    TaskStore :=
  let priority := body.priority.getD "medium"
  let task : TaskRow :=
    { id := newId, project_id := pid, seq := some (nextSeq s.tasks pid),
      title := body.title, description := body.description, status := "todo",
      priority := priority, tags := body.tags, parent_task_id := body.parent_task_id,
      created_at := now, updated_at := now }
  { tasks := s.tasks ++ [task],
    history := s.history ++
      [{ task_id := newId, event := "created", old_value := none,
         new_value := some (jsonStatusPriority
           (if priority = "medium" then "todo" else priority) priority),
         created_at := now }] }

/-- The `create_task` MCP tool handler: inserts the row the same way but
appends no history event (the handler contains no `recordTaskHistory` call). -/
def toolCreateTask (s : TaskStore) (pid newId : String) (body : CreateBody) (now : Nat) :
    TaskStore :=
  let priority := body.priority.getD "medium"
  let task : TaskRow :=
    { id := newId, project_id := pid, seq := some (nextSeq s.tasks pid),
      title := body.title, description := body.description, status := "todo",
      priority := priority, tags := body.tags, parent_task_id := body.parent_task_id,
      created_at := now, updated_at := now }
  { s with tasks := s.tasks ++ [task] }

/-- The `CASE t.priority WHEN 'critical' THEN 0 ... END` rank used by every
task ordering in the code.  The CHECK constraint admits only the four listed
values; the final branch is the SQL NULL case and never occurs in a valid
store. -/
def priorityRank (p : String) : Nat :=
  if p = "critical" then 0
  else if p = "high" then 1
  else if p = "medium" then 2
  else if p = "low" then 3
  else 4

/-- Ordering of the general task listing (`listTasks` route and `list_tasks`
tool): priority rank ascending, then `created_at` descending. -/
def generalTaskOrder (a b : TaskRow) : Prop :=
  priorityRank a.priority < priorityRank b.priority ∨
    (priorityRank a.priority = priorityRank b.priority ∧ b.created_at ≤ a.created_at)

/-- Ordering of the `get_next_tasks` query: priority rank ascending, then
`created_at` ascending (FIFO inside a priority band). -/
def nextTaskOrder (a b : TaskRow) : Prop :=
  priorityRank a.priority < priorityRank b.priority ∨
    (priorityRank a.priority = priorityRank b.priority ∧ a.created_at ≤ b.created_at)

instance : DecidableRel generalTaskOrder := fun a b => by
  unfold generalTaskOrder; infer_instance

instance : DecidableRel nextTaskOrder := fun a b => by
  unfold nextTaskOrder; infer_instance

instance : IsTotal TaskRow generalTaskOrder := by
  constructor
  intro a b
  unfold generalTaskOrder
  omega

instance : IsTrans TaskRow generalTaskOrder := by
  constructor
  intro a b c hab hbc
  unfold generalTaskOrder at *
  omega

instance : IsTotal TaskRow nextTaskOrder := by
  constructor
  intro a b
  unfold nextTaskOrder
  omega

instance : IsTrans TaskRow nextTaskOrder := by
  constructor
  intro a b c hab hbc
  unfold nextTaskOrder at *
  omega

/-- The GET `/api/projects/:pid/tasks` query (`listTasks`,
`src/server/routes.ts` lines 102-115): project filter, optional exclusion of
`done`/`cancelled`, `ORDER BY` rank ascending then `created_at` descending.
The `list_tasks` tool issues the same ordering. -/
def listTasksQuery (tasks : List TaskRow) (pid : String) (includeDone : Bool) :
    List TaskRow :=
  List.insertionSort generalTaskOrder
    (tasks.filter (fun t => t.project_id = pid ∧
      (includeDone = true ∨ (t.status ≠ "done" ∧ t.status ≠ "cancelled"))))

/-- The `get_next_tasks` tool query: statuses `todo`/`in_progress` only,
`ORDER BY` rank ascending then `created_at` ascending, `LIMIT ?` (the handler
passes `limit ?? 5`). -/
def getNextTasksQuery (tasks : List TaskRow) (pid : String) (limit : Nat) :
    List TaskRow :=
  (List.insertionSort nextTaskOrder
    (tasks.filter (fun t => t.project_id = pid ∧
      (t.status = "todo" ∨ t.status = "in_progress")))).take limit

/-- A row of the `projects` table. -/
structure ProjectRow where
  id : String
  name : String
  slug : Option String := none
  description : Option String := none
  status : String := "active"
  repo_path : Option String := none
  tech_stack : Option (List String) := none
  created_at : Nat := 0
  updated_at : Nat := 0
deriving DecidableEq, Repr

/-- A row of the `decisions` table. -/
structure DecisionRow where
  id : String
  project_id : String
  task_id : Option String := none
  title : String := ""
  decision : String := ""
  reasoning : Option String := none
  alternatives : Option (List String) := none
  tags : Option (List String) := none
  created_at : Nat := 0
deriving DecidableEq, Repr

/-- A row of the `notes` table. -/
structure NoteRow where
  id : String
  project_id : String
  task_id : Option String := none
  content : String := ""
  category : String := "general"
  tags : Option (List String) := none
  created_at : Nat := 0
deriving DecidableEq, Repr

/-- A row of the `sessions` table. -/
structure SessionRow where
  id : String
  project_id : String
  summary : String := ""
  tasks_worked_on : Option (List String) := none
  decisions_made : Option (List String) := none
  next_steps : Option String := none
  created_at : Nat := 0
deriving DecidableEq, Repr

/-- A row of the `context` table. -/
structure ContextRow where
  id : String
  project_id : String
  key : String
  value : String := ""
  category : String := "general"
  created_at : Nat := 0
  updated_at : Nat := 0
deriving DecidableEq, Repr

/-- The whole store, as the reconciliation engine sees it.  `nextId` is the
deterministic supply standing in for `generateId()`. -/
structure Db where
  projects : List ProjectRow := []
  tasks : List TaskRow := []
  decisions : List DecisionRow := []
  notes : List NoteRow := []
  sessions : List SessionRow := []
  context : List ContextRow := []
  nextId : Nat := 0
deriving DecidableEq, Repr

/-- Fresh id drawn from the supply. -/
def freshId (n : Nat) : String := "id" ++ toString n

/-- One merged activity item: `(type, entity id, display title, timestamp)`,
exactly the projection of the `UNION ALL` query in `getActivitySince`. -/
structure ActivityItem where
  type : String
  id : String
  title : String
  timestamp : Nat
deriving DecidableEq, Repr

/-- The `ORDER BY timestamp DESC` relation on merged activity. -/
def activityDesc (a b : ActivityItem) : Prop := b.timestamp ≤ a.timestamp

instance : DecidableRel activityDesc := fun a b => by
  unfold activityDesc; infer_instance

instance : IsTotal ActivityItem activityDesc := by
  constructor
  intro a b
  unfold activityDesc
  omega

instance : IsTrans ActivityItem activityDesc := by
  constructor
  intro a b c hab hbc
  unfold activityDesc at *
  omega

/-- The activity item a task row contributes as `'task_created'`. -/
def taskCreatedItem (t : TaskRow) : ActivityItem :=
  { type := "task_created", id := t.id, title := t.title, timestamp := t.created_at }

/-- The activity item a task row contributes as `'task_updated'`. -/
def taskUpdatedItem (t : TaskRow) : ActivityItem :=
  { type := "task_updated", id := t.id, title := t.title, timestamp := t.updated_at }

/-- The activity item a decision row contributes. -/
def decisionItem (d : DecisionRow) : ActivityItem :=
  { type := "decision", id := d.id, title := d.title, timestamp := d.created_at }

/-- The activity item a note row contributes; the title is
`substr(content, 1, 80)`. -/
def noteItem (n : NoteRow) : ActivityItem :=
  { type := "note", id := n.id, title := n.content.take 80, timestamp := n.created_at }

/-- `getActivitySince` (`src/tools/auto-session.ts` lines 19-39, repeated
verbatim in `src/tools/sessions.ts` lines 14-38): four `UNION ALL` branches
merged and sorted by timestamp descending.  All comparisons against the
cutoff are strict, and a task counts as updated only when its `updated_at`
differs from its `created_at`. -/
def getActivitySince (db : Db) (pid : String) (cutoff : Nat) : List ActivityItem :=
  List.insertionSort activityDesc
    (((db.tasks.filter (fun t => t.project_id = pid ∧ t.created_at > cutoff)).map
        taskCreatedItem) ++
     ((db.tasks.filter (fun t => t.project_id = pid ∧ t.updated_at > cutoff ∧
        t.updated_at ≠ t.created_at)).map taskUpdatedItem) ++
     ((db.decisions.filter (fun d => d.project_id = pid ∧ d.created_at > cutoff)).map
        decisionItem) ++
     ((db.notes.filter (fun n => n.project_id = pid ∧ n.created_at > cutoff)).map
        noteItem))

/-- `SELECT * FROM sessions WHERE project_id = ? ORDER BY created_at DESC
LIMIT 1`: a row of maximal `created_at` among the project's sessions (SQLite
leaves the choice among equal timestamps unspecified; this model keeps the
first such row). -/
def laterSession (acc : Option SessionRow) (s : SessionRow) : Option SessionRow :=
  match acc with
  | none => some s
  | some m => if m.created_at < s.created_at then some s else acc

def latestSession (sessions : List SessionRow) (pid : String) : Option SessionRow :=
  (sessions.filter (fun s => s.project_id = pid)).foldl laterSession none

/-- `lastSession?.created_at ?? '1970-01-01'`: the reconciliation cutoff,
with the epoch sentinel modelled as `0`. -/
def sessionCutoff (db : Db) (pid : String) : Nat :=
  match latestSession db.sessions pid with
  | some s => s.created_at
  | none => 0

/-- JS `[...new Set xs]`: de-duplication keeping the first occurrence of
each element. -/
def dedupFirstAux : List String → List String → List String
  | [], _ => []
  | x :: xs, seen =>
    if x ∈ seen then dedupFirstAux xs seen else x :: dedupFirstAux xs (x :: seen)

/-- De-duplicate a list of ids, keeping first occurrences. -/
def dedupFirst (xs : List String) : List String := dedupFirstAux xs []

/-- The auto-close step shared verbatim by `buildSessionText`
(`auto-session.ts` lines 45-76) and the `start_session` handler
(`sessions.ts` lines 60-92): compute the cutoff and the merged activity; when
the activity is non-empty, insert one synthetic session whose
`tasks_worked_on` de-duplicates the task ids of `task_created`/`task_updated`
items and whose `decisions_made` de-duplicates the decision ids (either list
is stored as NULL when empty).  Returns the activity together with the
possibly-extended store. -/
def autoClose (db : Db) (pid : String) (now : Nat) : List ActivityItem × Db :=
  let cutoff := sessionCutoff db pid
  let recentActivity := getActivitySince db pid cutoff
  if recentActivity.isEmpty then (recentActivity, db)
  else
    let taskIds := dedupFirst
      ((recentActivity.filter
        (fun a => a.type = "task_created" ∨ a.type = "task_updated")).map
        (fun a => a.id))
    let decisionIds := dedupFirst
      ((recentActivity.filter (fun a => a.type = "decision")).map (fun a => a.id))
    let sess : SessionRow :=
      { id := freshId db.nextId, project_id := pid,
        summary := "Auto-generated: " ++ toString recentActivity.length ++
          " activities since last session",
        tasks_worked_on := if taskIds.isEmpty then none else some taskIds,
        decisions_made := if decisionIds.isEmpty then none else some decisionIds,
        created_at := now }
    (recentActivity, { db with sessions := db.sessions ++ [sess], nextId := db.nextId + 1 })

/-- Ordering of the active-task block of the snapshot: the `ORDER BY` carries
the priority rank only. -/
def rankOnlyOrder (a b : TaskRow) : Prop :=
  priorityRank a.priority ≤ priorityRank b.priority

instance : DecidableRel rankOnlyOrder := fun a b => by
  unfold rankOnlyOrder; infer_instance

instance : IsTotal TaskRow rankOnlyOrder := by
  constructor
  intro a b
  unfold rankOnlyOrder
  omega

instance : IsTrans TaskRow rankOnlyOrder := by
  constructor
  intro a b c hab hbc
  unfold rankOnlyOrder at *
  omega

/-- Ordering of the recent-decision block: `created_at` descending. -/
def decisionDesc (a b : DecisionRow) : Prop := b.created_at ≤ a.created_at

instance : DecidableRel decisionDesc := fun a b => by
  unfold decisionDesc; infer_instance

instance : IsTotal DecisionRow decisionDesc := by
  constructor
  intro a b
  unfold decisionDesc
  omega

instance : IsTrans DecisionRow decisionDesc := by
  constructor
  intro a b c hab hbc
  unfold decisionDesc at *
  omega

/-- Ordering of the context block: `ORDER BY category, key` (SQLite BINARY
collation on TEXT, i.e. the lexicographic order on strings). -/
def contextOrder (a b : ContextRow) : Prop :=
  a.category < b.category ∨ (a.category = b.category ∧ a.key ≤ b.key)

instance : DecidableRel contextOrder := fun a b => by
  unfold contextOrder; infer_instance

instance : IsTotal ContextRow contextOrder := by
  constructor
  intro a b
  unfold contextOrder
  rcases lt_trichotomy a.category b.category with h | h | h
  · exact Or.inl (Or.inl h)
  · rcases le_total a.key b.key with hk | hk
    · exact Or.inl (Or.inr ⟨h, hk⟩)
    · exact Or.inr (Or.inr ⟨h.symm, hk⟩)
  · exact Or.inr (Or.inl h)

instance : IsTrans ContextRow contextOrder := by
  constructor
  intro a b c hab hbc
  unfold contextOrder at *
  rcases hab with h1 | ⟨h1, hk1⟩
  · rcases hbc with h2 | ⟨h2, _⟩
    · exact Or.inl (h1.trans h2)
    · exact Or.inl (h2 ▸ h1)
  · rcases hbc with h2 | ⟨h2, hk2⟩
    · exact Or.inl (h1 ▸ h2)
    · exact Or.inr ⟨h1.trans h2, hk1.trans hk2⟩

/-- The `{summary, next_steps, when}` projection of the most recent session
shown in the snapshot. -/
structure SessionSummaryView where
  summary : String
  next_steps : Option String
  happened_at : Nat
deriving DecidableEq, Repr

/-- `GROUP BY status` over the project's tasks: one `(status, count)` pair
per distinct status value (group order left unspecified by SQLite; this model
lists groups in first-appearance order). -/
def statusCounts (tasks : List TaskRow) (pid : String) : List (String × Nat) :=
  let mine := tasks.filter (fun t => t.project_id = pid)
  (dedupFirst (mine.map (fun t => t.status))).map
    (fun st => (st, (mine.filter (fun t => t.status = st)).length))

/-- The assembled catch-up snapshot (the structured value the handlers render
to JSON; the kanban URL line, a function of the HTTP port alone, is elided). -/
structure Snapshot where
  project : Option ProjectRow
  last_session : Option SessionSummaryView
  recent_activity : List ActivityItem
  task_summary : List (String × Nat)
  active_tasks : List TaskRow
  blocked_tasks : List TaskRow
  recent_decisions : List DecisionRow
  context : List (String × String × String)
deriving DecidableEq, Repr

/-- `buildSessionText` (`src/tools/auto-session.ts` lines 41-130); the
`start_session` handler (`src/tools/sessions.ts` lines 51-143) performs the
same statements in the same order.  Reads the project row, runs the
auto-close step, re-reads the most recent session, assembles the snapshot
blocks, and finally touches the project (`UPDATE projects SET status =
status`, which fires the `updated_at` trigger). -/
def buildSessionText (db : Db) (pid : String) (now : Nat) : Snapshot × Db :=
  let projectRow := db.projects.find? (fun p => p.id = pid)
  let closed := autoClose db pid now
  let recentActivity := closed.1
  let db := closed.2
  let lastSession := latestSession db.sessions pid
  let activeTasks := List.insertionSort rankOnlyOrder
    (db.tasks.filter (fun t => t.project_id = pid ∧
      t.status ≠ "done" ∧ t.status ≠ "cancelled"))
  let blockedTasks := db.tasks.filter (fun t => t.project_id = pid ∧ t.status = "blocked")
  let recentDecisions :=
    (List.insertionSort decisionDesc
      (db.decisions.filter (fun d => d.project_id = pid))).take 5
  let taskCounts := statusCounts db.tasks pid
  let contextItems :=
    (List.insertionSort contextOrder
      (db.context.filter (fun c => c.project_id = pid))).map
      (fun c => (c.key, c.value, c.category))
  let touched := db.projects.map
    (fun p => if p.id = pid then { p with updated_at := now } else p)
  let db := { db with projects := touched }
  let snap : Snapshot :=
    { project := projectRow,
      last_session := lastSession.map
        (fun s => { summary := s.summary, next_steps := s.next_steps,
                    happened_at := s.created_at }),
      recent_activity := recentActivity.take 20,
      task_summary := taskCounts,
      active_tasks := activeTasks,
      blocked_tasks := blockedTasks,
      recent_decisions := recentDecisions,
      context := contextItems }
  (snap, db)

/-- Process state: the store plus the process-local
`autoStartedProjects` set (`src/tools/auto-session.ts` line 13), modelled as
an insertion-ordered list of project ids. -/
structure ProcState where
  db : Db
  autoStartedProjects : List String := []
deriving DecidableEq, Repr

/-- `maybeAutoSession` (`src/tools/auto-session.ts` lines 137-141): a pure
no-op returning nothing when the project is already in the gate; otherwise
the id is added to the gate first and `buildSessionText` runs after. -/
def maybeAutoSession (st : ProcState) (pid : String) (now : Nat) :
    Option Snapshot × ProcState :=
  if pid ∈ st.autoStartedProjects then (none, st)
  else
    let started := st.autoStartedProjects ++ [pid]
    let r := buildSessionText st.db pid now
    (some r.1, { db := r.2, autoStartedProjects := started })

/-- The `start_session` tool handler after project resolution
(`src/tools/sessions.ts` lines 51-143): it always runs the full
reconcile-and-snapshot and returns the snapshot.  The handler never touches
`autoStartedProjects` (the exported `markSessionStarted` helper has no caller
anywhere in the sources), so the gate is returned unchanged. -/
def startSession (st : ProcState) (pid : String) (now : Nat) : Snapshot × ProcState :=
  let r := buildSessionText st.db pid now
  (r.1, { st with db := r.2 })

/-- `maybeAutoSession` with the body abstracted as a fallible computation, to
reason about a `buildSessionText` that throws: the statement order of lines
137-141 adds the project id to the gate before the body runs, and a thrown
error does not roll that insertion back. -/
def maybeAutoSessionWith (build : Db → Except String (Snapshot × Db))
    (st : ProcState) (pid : String) : Except String (Option Snapshot) × ProcState :=
  if pid ∈ st.autoStartedProjects then (Except.ok none, st)
  else
    let started := st.autoStartedProjects ++ [pid]
    match build st.db with
    | Except.error e => (Except.error e, { st with autoStartedProjects := started })
    | Except.ok (snap, db) =>
      (Except.ok (some snap), { db := db, autoStartedProjects := started })

/-- Lowercase a character and map anything outside `[a-z0-9]` to a space:
one character of the `name.toLowerCase().replace(/[^a-z0-9]+/g, ' ')`
normalisation in `generateSlug` (`src/utils/ids.ts`).  Collapsing of space
runs happens when splitting into words. -/
def toLowerAlnumSpace (c : Char) : Char :=
  let c := c.toLower
  if ('a' ≤ c ∧ c ≤ 'z') ∨ ('0' ≤ c ∧ c ≤ '9') then c else ' '

/-- The normalised word list of a project name. -/
def slugWords (name : String) : List String :=
  (((name.toList.map toLowerAlnumSpace).asString).splitOn " ").filter (fun w => w ≠ "")

/-- `generateSlug` (`src/utils/ids.ts` lines 7-22): initials of up to four
words, or the vowel-stripped single word, with the documented fallbacks. -/
def generateSlug (name : String) : String :=
  let words := slugWords name
  let normalized := String.intercalate " " words
  let slug :=
    if words.length > 1 then
      String.join ((words.take 4).map (fun w => w.take 1))
    else
      let consonants :=
        (normalized.toList.filter (fun c => c ∉ ['a', 'e', 'i', 'o', 'u'])).asString
      if consonants.length ≥ 2 then consonants.take 4 else normalized.take 4
  if slug ≠ "" then slug
  else if normalized.take 4 ≠ "" then normalized.take 4
  else "prj"

/-- The n-th candidate tried by the collision loop of the slug backfill:
the base slug itself, then `base2`, `base3`, ... -/
def slugCandidate (base : String) : Nat → String
  | 0 => base
  | Nat.succ k => base ++ toString (k + 2)

/-- The `while usedSlugs.has(candidate)` loop of `runMigrations`
(`src/db/schema.ts` lines 263-267): the first candidate not yet used.  At
most `used.length` candidates can collide, so the first `used.length + 1`
candidates always contain the answer; the `none` fallback is unreachable. -/
def pickSlug (used : List String) (base : String) : String :=
  match (List.range (used.length + 1)).find? (fun n => slugCandidate base n ∉ used) with
  | some n => slugCandidate base n
  | none => base

/-- The slug backfill loop: assign each project, in table order, the first
non-colliding candidate, accumulating the used set. -/
def backfillSlugs : List ProjectRow → List String → List ProjectRow
  | [], _ => []
  | p :: ps, used =>
    let c := pickSlug used (generateSlug p.name)
    { p with slug := some c } :: backfillSlugs ps (c :: used)

/-- The `ORDER BY created_at ASC, id ASC` relation used by the seq backfill. -/
def createdIdAsc (a b : TaskRow) : Prop :=
  a.created_at < b.created_at ∨ (a.created_at = b.created_at ∧ a.id ≤ b.id)

instance : DecidableRel createdIdAsc := fun a b => by
  unfold createdIdAsc; infer_instance

instance : IsTotal TaskRow createdIdAsc := by
  constructor
  intro a b
  unfold createdIdAsc
  rcases Nat.lt_trichotomy a.created_at b.created_at with h | h | h
  · exact Or.inl (Or.inl h)
  · rcases le_total a.id b.id with hk | hk
    · exact Or.inl (Or.inr ⟨h, hk⟩)
    · exact Or.inr (Or.inr ⟨h.symm, hk⟩)
  · exact Or.inr (Or.inl h)

instance : IsTrans TaskRow createdIdAsc := by
  constructor
  intro a b c hab hbc
  unfold createdIdAsc at *
  rcases hab with h1 | ⟨h1, hk1⟩
  · rcases hbc with h2 | ⟨h2, _⟩
    · exact Or.inl (h1.trans h2)
    · exact Or.inl (h2 ▸ h1)
  · rcases hbc with h2 | ⟨h2, hk2⟩
    · exact Or.inl (h1 ▸ h2)
    · exact Or.inr ⟨h1.trans h2, hk1.trans hk2⟩

/-- The per-project `(task id, seq)` assignment computed by the seq backfill:
tasks of each project ordered by `(created_at, id)` ascending, numbered from
1. -/
def seqAssignments (projects : List ProjectRow) (tasks : List TaskRow) :
    List (String × Nat) :=
  (projects.map (fun p =>
    ((List.insertionSort createdIdAsc
      (tasks.filter (fun t => t.project_id = p.id))).enum.map
      (fun ia => (ia.2.id, ia.1 + 1))))).flatten

/-- Store state for the migration layer.  The `...Has...` flags model column
presence (`PRAGMA table_info`) and `hasTasksSeqIndex` models the presence of
`idx_tasks_seq` in `sqlite_master`. -/
structure MigDb where
  projectsHasSlug : Bool := false
  tasksHasSeq : Bool := false
  decisionsHasTaskId : Bool := false
  hasTasksSeqIndex : Bool := false
  projects : List ProjectRow := []
  tasks : List TaskRow := []
  decisions : List DecisionRow := []
  task_history : List TaskHistoryRow := []
deriving DecidableEq, Repr

/-- Migration step 1 (`src/db/schema.ts` lines 255-271): add the `slug`
column if absent (freshly NULL on every row) and backfill unique slugs in
table order. -/
def migrateSlug (db : MigDb) : MigDb :=
  if db.projectsHasSlug then db
  else
    let cleared := db.projects.map (fun p => { p with slug := none })
    { db with projectsHasSlug := true, projects := backfillSlugs cleared [] }

/-- Migration step 2 (lines 274-287): add the `seq` column if absent and
backfill it per project in `(created_at, id)` order starting at 1. -/
def migrateSeq (db : MigDb) : MigDb :=
  if db.tasksHasSeq then db
  else
    let cleared := db.tasks.map (fun t => { t with seq := none })
    let assign := seqAssignments db.projects cleared
    let renumbered := cleared.map (fun t =>
      match List.lookup t.id assign with
      | some n => { t with seq := some n }
      | none => t)
    { db with tasksHasSeq := true, tasks := renumbered }

/-- Migration step 3 (lines 290-292): create `idx_tasks_seq` if absent. -/
def migrateSeqIndex (db : MigDb) : MigDb :=
  if db.hasTasksSeqIndex then db else { db with hasTasksSeqIndex := true }

/-- Migration step 4 (lines 295-298): add the nullable `task_id` column to
`decisions` if absent; no backfill. -/
def migrateDecisionTaskId (db : MigDb) : MigDb :=
  if db.decisionsHasTaskId then db
  else
    let cleared := db.decisions.map (fun d => { d with task_id := none })
    { db with decisionsHasTaskId := true, decisions := cleared }

/-- Migration step 5 (lines 301-311): when the history table is empty,
insert one synthetic `created` event per task, timestamped at the task's
`created_at`, carrying its status/priority snapshot. -/
def migrateHistoryBackfill (db : MigDb) : MigDb :=
  if db.task_history.length = 0 then
    { db with task_history := db.task_history ++ db.tasks.map (fun t =>
        { task_id := t.id, event := "created", old_value := none,
          new_value := some (jsonStatusPriority t.status t.priority),
          created_at := t.created_at }) }
  else db

/-- `runMigrations` (`src/db/schema.ts` lines 253-312): the five guarded
steps in source order. -/
def runMigrations (db : MigDb) : MigDb :=
  migrateHistoryBackfill
    (migrateDecisionTaskId (migrateSeqIndex (migrateSeq (migrateSlug db))))

/-- The slice of the store the DELETE `/api/tasks/:id` handler touches. -/
structure DeleteSlice where
  tasks : List TaskRow
  task_history : List TaskHistoryRow
  notes : List NoteRow
deriving DecidableEq, Repr

/-- The three DELETE statements issued for one task id inside the deletion
transaction (`src/server/routes.ts` lines 230-238): its history rows, its
notes, then the task row itself. -/
def deleteRowsFor (db : DeleteSlice) (i : String) : DeleteSlice :=
  { tasks := db.tasks.filter (fun t => t.id ≠ i),
    task_history := db.task_history.filter (fun h => h.task_id ≠ i),
    notes := db.notes.filter (fun n => n.task_id ≠ some i) }

/-- `SELECT id FROM tasks WHERE parent_task_id = ?`: the ids of the direct
subtasks of a task. -/
def directSubtaskIds (db : DeleteSlice) (tid : String) : List String :=
  (db.tasks.filter (fun t => t.parent_task_id = some tid)).map (fun t => t.id)

/-- The body of the deletion transaction (`src/server/routes.ts` lines
226-239): collect the direct subtask ids, delete each subtask's rows, then
the task's own rows.  `db.transaction` makes the whole body one atomic unit:
a reader only ever observes the state before this function or the state it
returns. -/
def deleteTaskCascade (db : DeleteSlice) (tid : String) : DeleteSlice :=
  let db0 := db
  let db := (directSubtaskIds db0 tid).foldl deleteRowsFor db0
  deleteRowsFor db tid

/-- The DELETE `/api/tasks/:id` handler: 404 (state unchanged) when the id
does not resolve, otherwise the transactional cascade. -/
def routesDeleteTask (db : DeleteSlice) (tid : String) : DeleteSlice :=
  match db.tasks.find? (fun t => t.id = tid) with
  | none => db
  | some _ => deleteTaskCascade db tid

/-! ### Concrete example stores used by closed theorems and witnesses -/

/-- A one-project store with one task whose creation (at time 5) was never
covered by any session: the reconciliation gate scenario of C1. -/
def exC1db : Db :=
  { projects := [{ id := "p1", name := "Proj" }],
    tasks := [{ id := "t1", project_id := "p1", title := "T",
                created_at := 5, updated_at := 5 }] }

/-- A store used to exercise the C2 reconciliation at a concrete input: one
task created and then updated after the last session, plus one decision. -/
def exC2db : Db :=
  { projects := [{ id := "p1", name := "Proj" }],
    tasks := [{ id := "t1", project_id := "p1", title := "T",
                created_at := 5, updated_at := 7 }],
    decisions := [{ id := "d1", project_id := "p1", title := "D", created_at := 6 }],
    sessions := [{ id := "s0", project_id := "p1", summary := "old", created_at := 2 }] }

/-- A build step that always throws, for the C10 witness. -/
def exFailingBuild : Db → Except String (Snapshot × Db) :=
  fun _ => Except.error "disk IO failure"

/-- An unmigrated store (no slug/seq/task_id columns, no index, no history)
with one project and two tasks, for the C8 witness. -/
def exMigDb : MigDb :=
  { projects := [{ id := "p1", name := "Proj" }],
    tasks := [{ id := "t1", project_id := "p1", created_at := 1 },
              { id := "t2", project_id := "p1", created_at := 2 }] }

/-- A store with a parent task, one subtask, an unrelated task, and
history/note rows on each, for the C9 witness. -/
def exDelDb : DeleteSlice :=
  { tasks := [{ id := "t1", project_id := "p1" },
              { id := "t2", project_id := "p1", parent_task_id := some "t1" },
              { id := "t3", project_id := "p1" }],
    task_history := [{ task_id := "t1", event := "created" },
                     { task_id := "t2", event := "created" },
                     { task_id := "t3", event := "created" }],
    notes := [{ id := "n1", project_id := "p1", task_id := some "t2" },
              { id := "n2", project_id := "p1", task_id := none }] }

/-! ### Helper lemmas -/

@[simp]
theorem applyTitle_status (v : Option String) (t : TaskRow) :
    (applyTitle v t).status = t.status := by cases v <;> rfl

@[simp]
theorem applyTitle_completed (v : Option String) (t : TaskRow) :
    (applyTitle v t).completed_at = t.completed_at := by cases v <;> rfl

@[simp]
theorem applyDescription_status (v : Option String) (t : TaskRow) :
    (applyDescription v t).status = t.status := by cases v <;> rfl

@[simp]
theorem applyDescription_completed (v : Option String) (t : TaskRow) :
    (applyDescription v t).completed_at = t.completed_at := by cases v <;> rfl

@[simp]
theorem applyPriority_status (v : Option String) (t : TaskRow) :
    (applyPriority v t).status = t.status := by cases v <;> rfl

@[simp]
theorem applyPriority_completed (v : Option String) (t : TaskRow) :
    (applyPriority v t).completed_at = t.completed_at := by cases v <;> rfl

@[simp]
theorem applyTags_status (v : Option (List String)) (t : TaskRow) :
    (applyTags v t).status = t.status := by cases v <;> rfl

@[simp]
theorem applyTags_completed (v : Option (List String)) (t : TaskRow) :
    (applyTags v t).completed_at = t.completed_at := by cases v <;> rfl

@[simp]
theorem routesApplyStatus_status_some (s : String) (now : Nat) (t : TaskRow) :
    (routesApplyStatus (some s) now t).status = s := by
  unfold routesApplyStatus
  by_cases h : s = "done" <;> simp [h]

@[simp]
theorem toolApplyStatus_status_some (s : String) (now : Nat) (t : TaskRow) :
    (toolApplyStatus (some s) now t).status = s := by
  unfold toolApplyStatus
  by_cases h : s = "done" <;> simp [h]

theorem routesApplyStatus_completed_some (s : String) (now : Nat) (t : TaskRow) :
    (routesApplyStatus (some s) now t).completed_at =
      if s = "done" then some now else none := by
  unfold routesApplyStatus
  by_cases h : s = "done" <;> simp [h]

theorem toolApplyStatus_completed_some (s : String) (now : Nat) (t : TaskRow) :
    (toolApplyStatus (some s) now t).completed_at =
      if s = "done" then some now else t.completed_at := by
  unfold toolApplyStatus
  by_cases h : s = "done" <;> simp [h]

@[simp]
theorem applyBlockedBy_status_none (bs : Option String) (t : TaskRow) :
    (applyBlockedBy none bs t).status = t.status := rfl

theorem applyBlockedBy_status_some (l : List String) (bs : Option String) (t : TaskRow) :
    (applyBlockedBy (some l) bs t).status =
      if l ≠ [] ∧ bs = none then "blocked" else t.status := by
  unfold applyBlockedBy
  by_cases h : l ≠ [] ∧ bs = none <;> simp [h]

@[simp]
theorem applyBlockedBy_completed (v : Option (List String)) (bs : Option String)
    (t : TaskRow) : (applyBlockedBy v bs t).completed_at = t.completed_at := by
  unfold applyBlockedBy
  cases v with
  | none => rfl
  | some l => by_cases h : l ≠ [] ∧ bs = none <;> simp [h]

theorem mem_statusEvent_iff (body : UpdateBody) (existing : TaskRow) (now : Nat) :
    (∃ e ∈ statusEvent body existing now, e.event = "status_changed") ↔
      ∃ v, body.status = some v ∧ v ≠ existing.status := by
  unfold statusEvent
  cases hs : body.status with
  | none => simp
  | some v =>
    by_cases hd : v = existing.status
    · simp [hd]
    · simp [hd]

theorem statusEvent_event (body : UpdateBody) (existing : TaskRow) (now : Nat) :
    ∀ e ∈ statusEvent body existing now, e.event = "status_changed" := by
  unfold statusEvent
  cases body.status with
  | none => simp
  | some v =>
    by_cases hd : v = existing.status
    · simp [hd]
    · simp [hd]

theorem mem_priorityEvent_iff (body : UpdateBody) (existing : TaskRow) (now : Nat) :
    (∃ e ∈ priorityEvent body existing now, e.event = "priority_changed") ↔
      ∃ v, body.priority = some v ∧ v ≠ existing.priority := by
  unfold priorityEvent
  cases hs : body.priority with
  | none => simp
  | some v =>
    by_cases hd : v = existing.priority
    · simp [hd]
    · simp [hd]

theorem priorityEvent_event (body : UpdateBody) (existing : TaskRow) (now : Nat) :
    ∀ e ∈ priorityEvent body existing now, e.event = "priority_changed" := by
  unfold priorityEvent
  cases body.priority with
  | none => simp
  | some v =>
    by_cases hd : v = existing.priority
    · simp [hd]
    · simp [hd]

theorem mem_titleEvent_iff (body : UpdateBody) (existing : TaskRow) (now : Nat) :
    (∃ e ∈ titleEvent body existing now, e.event = "title_changed") ↔
      ∃ v, body.title = some v ∧ v ≠ existing.title := by
  unfold titleEvent
  cases hs : body.title with
  | none => simp
  | some v =>
    by_cases hd : v = existing.title
    · simp [hd]
    · simp [hd]

theorem titleEvent_event (body : UpdateBody) (existing : TaskRow) (now : Nat) :
    ∀ e ∈ titleEvent body existing now, e.event = "title_changed" := by
  unfold titleEvent
  cases body.title with
  | none => simp
  | some v =>
    by_cases hd : v = existing.title
    · simp [hd]
    · simp [hd]

/-! ### Claims C4 to C7 -/

/-- C4: on both task-update paths (the PATCH route and the `update_task`
tool), setting `blocked_by` to a non-empty list without a status forces the
resulting status to `blocked`, while supplying both keeps the explicit
status. -/
theorem spec_C4_blocked_by_forces_status (body : UpdateBody) (now : Nat) (t : TaskRow)
    (l : List String) (hbb : body.blocked_by = some l) (hl : l ≠ []) :
    (body.status = none →
      (routesApplyTaskUpdate body now t).status = "blocked" ∧
      (toolApplyTaskUpdate body now t).status = "blocked") ∧
    (∀ s, body.status = some s →
      (routesApplyTaskUpdate body now t).status = s ∧
      (toolApplyTaskUpdate body now t).status = s) := by
  constructor
  · intro hst
    unfold routesApplyTaskUpdate toolApplyTaskUpdate
    simp [hbb, hst, applyBlockedBy_status_some, hl]
  · intro s hst
    unfold routesApplyTaskUpdate toolApplyTaskUpdate
    simp [hbb, hst, applyBlockedBy_status_some]

/-- Witness for C4 at a concrete update. -/
theorem spec_C4_blocked_by_forces_status_witness :
    (routesApplyTaskUpdate { blocked_by := some ["t2"] } 7
      { id := "t1", project_id := "p1" }).status = "blocked" ∧
    (toolApplyTaskUpdate { blocked_by := some ["t2"] } 7
      { id := "t1", project_id := "p1" }).status = "blocked" :=
  (spec_C4_blocked_by_forces_status { blocked_by := some ["t2"] } 7
    { id := "t1", project_id := "p1" } ["t2"] rfl (by simp)).1 rfl

/-- C5 as stated is false on the `update_task` tool path: updating a done
task (with `completed_at` stamped at 5) to the non-done status `todo` leaves
`completed_at` untouched instead of clearing it. -/
theorem spec_C5_counterexample :
    ({ status := some "todo" } : UpdateBody).status = some "todo" ∧
    "todo" ≠ "done" ∧
    (toolApplyTaskUpdate { status := some "todo" } 10
      { id := "t1", project_id := "p1", status := "done",
        completed_at := some 5 }).completed_at = some 5 :=
  ⟨rfl, by decide, rfl⟩

/-- C5 amended: setting status `done` stamps `completed_at` with the current
time on both paths; setting a non-done status clears it on the HTTP route
but leaves the stored value unchanged on the `update_task` tool path. -/
theorem spec_C5_completed_at (body : UpdateBody) (now : Nat) (t : TaskRow) (s : String)
    (hst : body.status = some s) :
    (s = "done" →
      (routesApplyTaskUpdate body now t).completed_at = some now ∧
      (toolApplyTaskUpdate body now t).completed_at = some now) ∧
    (s ≠ "done" →
      (routesApplyTaskUpdate body now t).completed_at = none ∧
      (toolApplyTaskUpdate body now t).completed_at = t.completed_at) := by
  constructor <;>
  · intro hd
    unfold routesApplyTaskUpdate toolApplyTaskUpdate
    simp [hst, routesApplyStatus_completed_some, toolApplyStatus_completed_some, hd]

/-- Witness for C5 at a concrete update. -/
theorem spec_C5_completed_at_witness :
    (routesApplyTaskUpdate { status := some "in_progress" } 9
      { id := "t1", project_id := "p1", status := "done",
        completed_at := some 5 }).completed_at = none ∧
    (toolApplyTaskUpdate { status := some "in_progress" } 9
      { id := "t1", project_id := "p1", status := "done",
        completed_at := some 5 }).completed_at = some 5 :=
  (spec_C5_completed_at { status := some "in_progress" } 9
    { id := "t1", project_id := "p1", status := "done", completed_at := some 5 }
    "in_progress" rfl).2 (by decide)

/-- C6 as stated is false on the `update_task` tool path: a status change
from `todo` to `done` is applied to the row yet appends no history record. -/
theorem spec_C6_counterexample :
    (toolUpdateTask
      { tasks := [{ id := "t1", project_id := "p1", status := "todo" }], history := [] }
      "t1" { status := some "done" } 10).history = [] ∧
    ((toolUpdateTask
      { tasks := [{ id := "t1", project_id := "p1", status := "todo" }], history := [] }
      "t1" { status := some "done" } 10).tasks.map (fun t => t.status)) = ["done"] :=
  ⟨rfl, rfl⟩

/-- C6 amended: on the HTTP handlers a history record for a tracked field is
appended exactly when the supplied value differs from the stored one, and
`createTask` appends exactly one `created` event; the `update_task` and
`create_task` tool handlers append no history at all. -/
theorem spec_C6_history_records (s : TaskStore) (tid : String) (body : UpdateBody)
    (now : Nat) (existing : TaskRow)
    (hfind : s.tasks.find? (fun t => t.id = tid) = some existing)
    (hbody : body ≠ {}) :
    ((routesUpdateTask s tid body now).history =
      s.history ++ routesUpdateEvents body existing now) ∧
    ((∃ e ∈ routesUpdateEvents body existing now, e.event = "status_changed") ↔
      ∃ v, body.status = some v ∧ v ≠ existing.status) ∧
    ((∃ e ∈ routesUpdateEvents body existing now, e.event = "priority_changed") ↔
      ∃ v, body.priority = some v ∧ v ≠ existing.priority) ∧
    ((∃ e ∈ routesUpdateEvents body existing now, e.event = "title_changed") ↔
      ∃ v, body.title = some v ∧ v ≠ existing.title) ∧
    ((toolUpdateTask s tid body now).history = s.history) ∧
    (∀ pid newId cbody,
      ∃ e, (routesCreateTask s pid newId cbody now).history = s.history ++ [e] ∧
        e.event = "created") ∧
    (∀ pid newId cbody, (toolCreateTask s pid newId cbody now).history = s.history) := by
  refine ⟨?_, ?_, ?_, ?_, ?_, ?_, ?_⟩
  · have hstep : routesUpdateTask s tid body now =
        { tasks := updateRowById s.tasks tid (routesApplyTaskUpdate body now),
          history := s.history ++ routesUpdateEvents body existing now } := by
      unfold routesUpdateTask
      rw [hfind]
      exact if_neg hbody
    rw [hstep]
  · unfold routesUpdateEvents
    rw [← mem_statusEvent_iff body existing now]
    constructor
    · rintro ⟨e, he, hev⟩
      rcases List.mem_append.1 he with h | h
      · rcases List.mem_append.1 h with h | h
        · exact ⟨e, h, hev⟩
        · exact absurd (priorityEvent_event body existing now e h ▸ hev) (by decide)
      · exact absurd (titleEvent_event body existing now e h ▸ hev) (by decide)
    · rintro ⟨e, he, hev⟩
      exact ⟨e, List.mem_append.2 (Or.inl (List.mem_append.2 (Or.inl he))), hev⟩
  · unfold routesUpdateEvents
    rw [← mem_priorityEvent_iff body existing now]
    constructor
    · rintro ⟨e, he, hev⟩
      rcases List.mem_append.1 he with h | h
      · rcases List.mem_append.1 h with h | h
        · exact absurd (statusEvent_event body existing now e h ▸ hev) (by decide)
        · exact ⟨e, h, hev⟩
      · exact absurd (titleEvent_event body existing now e h ▸ hev) (by decide)
    · rintro ⟨e, he, hev⟩
      exact ⟨e, List.mem_append.2 (Or.inl (List.mem_append.2 (Or.inr he))), hev⟩
  · unfold routesUpdateEvents
    rw [← mem_titleEvent_iff body existing now]
    constructor
    · rintro ⟨e, he, hev⟩
      rcases List.mem_append.1 he with h | h
      · rcases List.mem_append.1 h with h | h
        · exact absurd (statusEvent_event body existing now e h ▸ hev) (by decide)
        · exact absurd (priorityEvent_event body existing now e h ▸ hev) (by decide)
      · exact ⟨e, h, hev⟩
    · rintro ⟨e, he, hev⟩
      exact ⟨e, List.mem_append.2 (Or.inr he), hev⟩
  · have hstep : toolUpdateTask s tid body now =
        { s with tasks := updateRowById s.tasks tid (toolApplyTaskUpdate body now) } := by
      unfold toolUpdateTask
      rw [hfind]
      exact if_neg hbody
    rw [hstep]
  · intro pid newId cbody
    exact ⟨_, rfl, rfl⟩
  · intro pid newId cbody
    rfl

/-- Witness for C6 at a concrete store and update. -/
theorem spec_C6_history_records_witness :
    (routesUpdateTask
      { tasks := [{ id := "t1", project_id := "p1", status := "todo" }], history := [] }
      "t1" { status := some "done" } 10).history =
      ([] : List TaskHistoryRow) ++
        routesUpdateEvents { status := some "done" }
          { id := "t1", project_id := "p1", status := "todo" } 10 :=
  (spec_C6_history_records
    { tasks := [{ id := "t1", project_id := "p1", status := "todo" }], history := [] }
    "t1" { status := some "done" } 10
    { id := "t1", project_id := "p1", status := "todo" } rfl (by decide)).1

/-- C7: the general task listing is sorted by priority rank ascending then
creation time descending and holds exactly the project's tasks surviving the
done/cancelled filter; the next-tasks query is sorted by rank ascending then
creation time ascending and only ever returns `todo`/`in_progress` tasks of
the project. -/
theorem spec_C7_task_orderings (tasks : List TaskRow) (pid : String)
    (includeDone : Bool) (limit : Nat) :
    (listTasksQuery tasks pid includeDone).Sorted generalTaskOrder ∧
    (∀ t, t ∈ listTasksQuery tasks pid includeDone ↔
      t ∈ tasks ∧ t.project_id = pid ∧
        (includeDone = true ∨ (t.status ≠ "done" ∧ t.status ≠ "cancelled"))) ∧
    (getNextTasksQuery tasks pid limit).Sorted nextTaskOrder ∧
    (∀ t, t ∈ getNextTasksQuery tasks pid limit →
      t ∈ tasks ∧ t.project_id = pid ∧
        (t.status = "todo" ∨ t.status = "in_progress")) := by
  refine ⟨?_, ?_, ?_, ?_⟩
  · exact List.sorted_insertionSort generalTaskOrder _
  · intro t
    unfold listTasksQuery
    simp [List.mem_filter, decide_eq_true_eq, and_assoc]
  · exact (List.sorted_insertionSort nextTaskOrder _).sublist
      (List.take_sublist limit _)
  · intro t ht
    unfold getNextTasksQuery at ht
    have h1 := List.take_subset limit _ ht
    rw [List.mem_insertionSort] at h1
    have h2 := List.mem_filter.1 h1
    refine ⟨h2.1, ?_⟩
    have := h2.2
    simp only [decide_eq_true_eq] at this
    exact this

/-- Witness for C7 at a concrete task list. -/
theorem spec_C7_task_orderings_witness :
    ({ id := "t2", project_id := "p1", status := "done" } : TaskRow) ∈
      listTasksQuery
        [{ id := "t1", project_id := "p1", status := "todo" },
         { id := "t2", project_id := "p1", status := "done" }] "p1" true ↔
      ({ id := "t2", project_id := "p1", status := "done" } : TaskRow) ∈
        ([{ id := "t1", project_id := "p1", status := "todo" },
          { id := "t2", project_id := "p1", status := "done" }] : List TaskRow) ∧
      ({ id := "t2", project_id := "p1", status := "done" } : TaskRow).project_id = "p1" ∧
      (true = true ∨
        (({ id := "t2", project_id := "p1", status := "done" } : TaskRow).status ≠ "done" ∧
         ({ id := "t2", project_id := "p1", status := "done" } : TaskRow).status ≠ "cancelled")) :=
  (spec_C7_task_orderings
    [{ id := "t1", project_id := "p1", status := "todo" },
     { id := "t2", project_id := "p1", status := "done" }] "p1" true 5).2.1
    { id := "t2", project_id := "p1", status := "done" }

theorem mem_dedupFirstAux (xs : List String) :
    ∀ (seen : List String) (a : String),
      a ∈ dedupFirstAux xs seen ↔ a ∈ xs ∧ a ∉ seen := by
  induction xs with
  | nil =>
    intro seen a
    simp [dedupFirstAux]
  | cons x xs ih =>
    intro seen a
    unfold dedupFirstAux
    by_cases hx : x ∈ seen
    · rw [if_pos hx, ih]
      simp only [List.mem_cons]
      constructor
      · rintro ⟨ha, hs⟩
        exact ⟨Or.inr ha, hs⟩
      · rintro ⟨ha | ha, hs⟩
        · subst ha
          exact absurd hx hs
        · exact ⟨ha, hs⟩
    · rw [if_neg hx]
      simp only [List.mem_cons, ih]
      constructor
      · rintro (ha | ⟨ha, hs⟩)
        · subst ha
          exact ⟨Or.inl rfl, hx⟩
        · push_neg at hs
          exact ⟨Or.inr ha, hs.2⟩
      · rintro ⟨ha | ha, hs⟩
        · exact Or.inl ha
        · by_cases hax : a = x
          · exact Or.inl hax
          · refine Or.inr ⟨ha, ?_⟩
            push_neg
            exact ⟨hax, hs⟩

theorem nodup_dedupFirstAux (xs : List String) :
    ∀ seen, (dedupFirstAux xs seen).Nodup := by
  induction xs with
  | nil =>
    intro seen
    simp [dedupFirstAux]
  | cons x xs ih =>
    intro seen
    unfold dedupFirstAux
    by_cases hx : x ∈ seen
    · rw [if_pos hx]
      exact ih seen
    · rw [if_neg hx]
      refine List.nodup_cons.2 ⟨?_, ih (x :: seen)⟩
      intro hmem
      rw [mem_dedupFirstAux] at hmem
      exact hmem.2 (List.mem_cons_self x seen)

theorem mem_dedupFirst (xs : List String) (a : String) :
    a ∈ dedupFirst xs ↔ a ∈ xs := by
  unfold dedupFirst
  rw [mem_dedupFirstAux]
  simp

theorem nodup_dedupFirst (xs : List String) : (dedupFirst xs).Nodup :=
  nodup_dedupFirstAux xs []

theorem dedupFirst_eq_nil_iff (xs : List String) : dedupFirst xs = [] ↔ xs = [] := by
  constructor
  · intro h
    cases hx : xs with
    | nil => rfl
    | cons y ys =>
      have : y ∈ dedupFirst xs := (mem_dedupFirst xs y).2 (hx ▸ List.mem_cons_self y ys)
      rw [h] at this
      cases this
  · intro h
    rw [h]
    rfl

theorem laterSession_ne_none (acc : Option SessionRow) (s : SessionRow) :
    laterSession acc s ≠ none := by
  unfold laterSession
  cases acc with
  | none => simp
  | some m =>
    by_cases h : m.created_at < s.created_at <;> simp [h]

theorem foldl_laterSession_eq_none (l : List SessionRow) :
    ∀ acc, l.foldl laterSession acc = none → l = [] ∧ acc = none := by
  induction l with
  | nil =>
    intro acc h
    exact ⟨rfl, h⟩
  | cons x l ih =>
    intro acc h
    rw [List.foldl_cons] at h
    exact absurd (ih (laterSession acc x) h).2 (laterSession_ne_none acc x)

theorem foldl_laterSession_spec (l : List SessionRow) :
    ∀ (acc : Option SessionRow) (m : SessionRow),
      l.foldl laterSession acc = some m →
        (acc = some m ∨ m ∈ l) ∧ (∀ x ∈ l, x.created_at ≤ m.created_at) ∧
          (∀ m0, acc = some m0 → m0.created_at ≤ m.created_at) := by
  induction l with
  | nil =>
    intro acc m h
    rw [List.foldl_nil] at h
    refine ⟨Or.inl h, by simp, fun m0 h0 => ?_⟩
    rw [h0] at h
    cases h
    exact le_refl _
  | cons x l ih =>
    intro acc m h
    rw [List.foldl_cons] at h
    obtain ⟨hmem, hbound, hacc⟩ := ih (laterSession acc x) m h
    cases hac : acc with
    | none =>
      have hstep : laterSession acc x = some x := by rw [hac]; rfl
      have hx_le : x.created_at ≤ m.created_at := hacc x hstep
      refine ⟨?_, ?_, ?_⟩
      · rcases hmem with hm | hm
        · rw [hstep] at hm
          cases hm
          exact Or.inr (List.mem_cons_self x l)
        · exact Or.inr (List.mem_cons_of_mem x hm)
      · intro y hy
        rcases List.mem_cons.1 hy with hy | hy
        · exact hy ▸ hx_le
        · exact hbound y hy
      · intro m0 h0
        cases h0
    | some m0 =>
      by_cases hlt : m0.created_at < x.created_at
      · have hstep : laterSession acc x = some x := by
          rw [hac]; simp [laterSession, hlt]
        have hx_le : x.created_at ≤ m.created_at := hacc x hstep
        refine ⟨?_, ?_, ?_⟩
        · rcases hmem with hm | hm
          · rw [hstep] at hm
            cases hm
            exact Or.inr (List.mem_cons_self x l)
          · exact Or.inr (List.mem_cons_of_mem x hm)
        · intro y hy
          rcases List.mem_cons.1 hy with hy | hy
          · exact hy ▸ hx_le
          · exact hbound y hy
        · intro m1 h1
          cases h1
          exact le_trans (le_of_lt hlt) hx_le
      · have hstep : laterSession acc x = some m0 := by
          rw [hac]; simp [laterSession, hlt]
        have hm0_le : m0.created_at ≤ m.created_at := hacc m0 hstep
        refine ⟨?_, ?_, ?_⟩
        · rcases hmem with hm | hm
          · rw [hstep] at hm
            exact Or.inl (hac ▸ hm)
          · exact Or.inr (List.mem_cons_of_mem x hm)
        · intro y hy
          rcases List.mem_cons.1 hy with hy | hy
          · subst hy
            exact le_trans (le_of_not_lt hlt) hm0_le
          · exact hbound y hy
        · intro m1 h1
          cases h1
          exact hm0_le

theorem dedupOpt_nodup (xs : List String) :
    ((if (dedupFirst xs).isEmpty then none else some (dedupFirst xs)).getD
      ([] : List String)).Nodup := by
  by_cases h : (dedupFirst xs).isEmpty
  · simp [h]
  · simp only [h, if_false, Option.getD_some]
    exact nodup_dedupFirst xs

theorem dedupOpt_mem (xs : List String) (x : String) :
    x ∈ (if (dedupFirst xs).isEmpty then none else some (dedupFirst xs)).getD
      ([] : List String) ↔ x ∈ xs := by
  by_cases h : (dedupFirst xs).isEmpty
  · rw [List.isEmpty_eq_true] at h
    have hxs : xs = [] := (dedupFirst_eq_nil_iff xs).1 h
    subst hxs
    simp [h]
  · simp only [h, if_false, Option.getD_some]
    exact mem_dedupFirst xs x

/-! ### Claims C1 to C3 and C10 -/

/-- C1 (code bug): `start_session` runs the full reconcile but never adds the
project to `autoStartedProjects` (the exported `markSessionStarted` helper has
no caller), so — contrary to the claim — the next gated call for the same
project is not a no-op: starting from a fresh process whose store has one
unrecorded task, `start_session` leaves the gate empty and a subsequent
`maybeAutoSession` still returns a snapshot instead of nothing. -/
theorem spec_C1_start_session_leaves_gate_unset :
    (startSession { db := exC1db } "p1" 10).2.autoStartedProjects = [] ∧
    (maybeAutoSession (startSession { db := exC1db } "p1" 10).2 "p1" 20).1.isSome
      = true :=
  ⟨rfl, rfl⟩

/-- C2: the auto-close step inserts a synthetic session exactly when the
merged activity list is non-empty; the inserted row's `tasks_worked_on` holds
each task id from `task_created`/`task_updated` items exactly once (no
duplicates, membership-exact) and its `decisions_made` holds each decision id
exactly once; on empty activity the store is untouched. -/
theorem spec_C2_synthetic_session (db : Db) (pid : String) (now : Nat) :
    (getActivitySince db pid (sessionCutoff db pid) = [] →
      (autoClose db pid now).2 = db) ∧
    (getActivitySince db pid (sessionCutoff db pid) ≠ [] →
      ∃ sess : SessionRow,
        (autoClose db pid now).2.sessions = db.sessions ++ [sess] ∧
        (sess.tasks_worked_on.getD []).Nodup ∧
        (∀ x, x ∈ sess.tasks_worked_on.getD [] ↔
          x ∈ ((getActivitySince db pid (sessionCutoff db pid)).filter
            (fun a => a.type = "task_created" ∨ a.type = "task_updated")).map
            (fun a => a.id)) ∧
        (sess.decisions_made.getD []).Nodup ∧
        (∀ x, x ∈ sess.decisions_made.getD [] ↔
          x ∈ ((getActivitySince db pid (sessionCutoff db pid)).filter
            (fun a => a.type = "decision")).map (fun a => a.id))) := by
  constructor
  · intro h
    simp [autoClose, h]
  · intro h
    have hne : (getActivitySince db pid (sessionCutoff db pid)).isEmpty = false := by
      cases hx : getActivitySince db pid (sessionCutoff db pid) with
      | nil => exact absurd hx h
      | cons y ys => rfl
    unfold autoClose
    simp only [hne, Bool.false_eq_true, if_false]
    refine ⟨_, rfl, ?_, ?_, ?_, ?_⟩
    · exact dedupOpt_nodup _
    · intro x
      exact dedupOpt_mem _ x
    · exact dedupOpt_nodup _
    · intro x
      exact dedupOpt_mem _ x

/-- Witness for C2: on a concrete store with unrecorded activity, the
auto-close step adds exactly one session row. -/
theorem spec_C2_synthetic_session_witness :
    (autoClose exC2db "p1" 10).2.sessions.length = exC2db.sessions.length + 1 := by
  obtain ⟨sess, hs, -, -, -, -⟩ :=
    (spec_C2_synthetic_session exC2db "p1" 10).2 (by decide)
  rw [hs]
  simp

/-- C3: the cutoff is the `created_at` of the project's most recent session
(0, the epoch sentinel, when it has none); the merged activity is sorted by
timestamp descending and holds exactly the task-created, task-updated (with
`updated_at` differing from `created_at`), decision and note items of the
project strictly after the cutoff. -/
theorem spec_C3_cutoff_and_activity (db : Db) (pid : String) :
    (db.sessions.filter (fun s => s.project_id = pid) = [] →
      sessionCutoff db pid = 0) ∧
    (db.sessions.filter (fun s => s.project_id = pid) ≠ [] →
      ∃ m ∈ db.sessions.filter (fun s => s.project_id = pid),
        m.created_at = sessionCutoff db pid ∧
        ∀ x ∈ db.sessions.filter (fun s => s.project_id = pid),
          x.created_at ≤ m.created_at) ∧
    (getActivitySince db pid (sessionCutoff db pid)).Sorted activityDesc ∧
    (∀ a, a ∈ getActivitySince db pid (sessionCutoff db pid) ↔
      ((∃ t ∈ db.tasks, (t.project_id = pid ∧
          t.created_at > sessionCutoff db pid) ∧ a = taskCreatedItem t) ∨
       (∃ t ∈ db.tasks, (t.project_id = pid ∧
          t.updated_at > sessionCutoff db pid ∧
          t.updated_at ≠ t.created_at) ∧ a = taskUpdatedItem t) ∨
       (∃ d ∈ db.decisions, (d.project_id = pid ∧
          d.created_at > sessionCutoff db pid) ∧ a = decisionItem d) ∨
       (∃ n ∈ db.notes, (n.project_id = pid ∧
          n.created_at > sessionCutoff db pid) ∧ a = noteItem n))) := by
  refine ⟨?_, ?_, ?_, ?_⟩
  · intro h
    simp [sessionCutoff, latestSession, h]
  · intro h
    cases hls : latestSession db.sessions pid with
    | none =>
      unfold latestSession at hls
      exact absurd (foldl_laterSession_eq_none _ none hls).1 h
    | some m =>
      have hfold : (db.sessions.filter (fun s => s.project_id = pid)).foldl
          laterSession none = some m := by
        unfold latestSession at hls
        exact hls
      obtain ⟨hmem, hbound, -⟩ := foldl_laterSession_spec _ none m hfold
      refine ⟨m, ?_, ?_, hbound⟩
      · rcases hmem with hm | hm
        · cases hm
        · exact hm
      · unfold sessionCutoff
        rw [hls]
  · exact List.sorted_insertionSort activityDesc _
  · intro a
    simp only [getActivitySince, List.mem_insertionSort, List.mem_append, List.mem_map,
      List.mem_filter, decide_eq_true_eq]
    constructor
    · rintro (((⟨t, ⟨ht, hp⟩, rfl⟩ | ⟨t, ⟨ht, hp⟩, rfl⟩) | ⟨d, ⟨hd, hp⟩, rfl⟩) |
        ⟨n, ⟨hn, hp⟩, rfl⟩)
      · exact Or.inl ⟨t, ht, hp, rfl⟩
      · exact Or.inr (Or.inl ⟨t, ht, hp, rfl⟩)
      · exact Or.inr (Or.inr (Or.inl ⟨d, hd, hp, rfl⟩))
      · exact Or.inr (Or.inr (Or.inr ⟨n, hn, hp, rfl⟩))
    · rintro (⟨t, ht, hp, rfl⟩ | ⟨t, ht, hp, rfl⟩ | ⟨d, hd, hp, rfl⟩ | ⟨n, hn, hp, rfl⟩)
      · exact Or.inl (Or.inl (Or.inl ⟨t, ⟨ht, hp⟩, rfl⟩))
      · exact Or.inl (Or.inl (Or.inr ⟨t, ⟨ht, hp⟩, rfl⟩))
      · exact Or.inl (Or.inr ⟨d, ⟨hd, hp⟩, rfl⟩)
      · exact Or.inr ⟨n, ⟨hn, hp⟩, rfl⟩

/-- Witness for C3: on the concrete store the cutoff is the `created_at` (2)
of the only session. -/
theorem spec_C3_cutoff_and_activity_witness : sessionCutoff exC2db "p1" = 2 := by
  obtain ⟨m, hmem, hcut, -⟩ := (spec_C3_cutoff_and_activity exC2db "p1").2.1 (by decide)
  have hf : exC2db.sessions.filter (fun s => s.project_id = "p1") =
      [{ id := "s0", project_id := "p1", summary := "old", created_at := 2 }] := rfl
  rw [hf] at hmem
  have hm := List.mem_singleton.1 hmem
  rw [← hcut, hm]

/-- C10: `maybeAutoSession` consumes the gate before building the snapshot:
for a project not yet started, the id lands in the gate no matter what the
build step does — even when it throws, the error propagates with the gate
already extended and the store untouched — and any later call for the same
project is a pure no-op. -/
theorem spec_C10_gate_consumed_before_build
    (build : Db → Except String (Snapshot × Db))
    (st : ProcState) (pid : String) (now : Nat)
    (h : pid ∉ st.autoStartedProjects) :
    ((maybeAutoSession st pid now).2.autoStartedProjects =
      st.autoStartedProjects ++ [pid]) ∧
    ((maybeAutoSessionWith build st pid).2.autoStartedProjects =
      st.autoStartedProjects ++ [pid]) ∧
    (∀ e, build st.db = Except.error e →
      maybeAutoSessionWith build st pid =
        (Except.error e,
          { st with autoStartedProjects := st.autoStartedProjects ++ [pid] })) ∧
    (∀ st2 : ProcState, pid ∈ st2.autoStartedProjects →
      maybeAutoSessionWith build st2 pid = (Except.ok none, st2) ∧
      maybeAutoSession st2 pid now = (none, st2)) := by
  refine ⟨?_, ?_, ?_, ?_⟩
  · simp [maybeAutoSession, h]
  · cases hb : build st.db with
    | error e => simp [maybeAutoSessionWith, h, hb]
    | ok p =>
      obtain ⟨snap, db2⟩ := p
      simp [maybeAutoSessionWith, h, hb]
  · intro e he
    simp [maybeAutoSessionWith, h, he]
  · intro st2 h2
    exact ⟨by simp [maybeAutoSessionWith, h2], by simp [maybeAutoSession, h2]⟩

/-- Witness for C10: a build step that throws still leaves the project
marked as started. -/
theorem spec_C10_gate_consumed_before_build_witness :
    maybeAutoSessionWith exFailingBuild { db := exC1db } "p1" =
      (Except.error "disk IO failure",
        { db := exC1db, autoStartedProjects := ["p1"] }) := by
  have h := (spec_C10_gate_consumed_before_build exFailingBuild { db := exC1db }
    "p1" 0 (by simp)).2.2.1 "disk IO failure" rfl
  simpa using h

theorem migrateSlug_fields (db : MigDb) :
    (migrateSlug db).projectsHasSlug = true ∧
    (migrateSlug db).tasksHasSeq = db.tasksHasSeq ∧
    (migrateSlug db).hasTasksSeqIndex = db.hasTasksSeqIndex ∧
    (migrateSlug db).decisionsHasTaskId = db.decisionsHasTaskId ∧
    (migrateSlug db).tasks = db.tasks ∧
    (migrateSlug db).task_history = db.task_history := by
  unfold migrateSlug
  split <;> simp_all

theorem migrateSeq_fields (db : MigDb) :
    (migrateSeq db).tasksHasSeq = true ∧
    (migrateSeq db).projectsHasSlug = db.projectsHasSlug ∧
    (migrateSeq db).hasTasksSeqIndex = db.hasTasksSeqIndex ∧
    (migrateSeq db).decisionsHasTaskId = db.decisionsHasTaskId ∧
    (migrateSeq db).tasks.length = db.tasks.length ∧
    (migrateSeq db).task_history = db.task_history := by
  unfold migrateSeq
  split <;> simp_all

theorem migrateSeqIndex_fields (db : MigDb) :
    (migrateSeqIndex db).hasTasksSeqIndex = true ∧
    (migrateSeqIndex db).projectsHasSlug = db.projectsHasSlug ∧
    (migrateSeqIndex db).tasksHasSeq = db.tasksHasSeq ∧
    (migrateSeqIndex db).decisionsHasTaskId = db.decisionsHasTaskId ∧
    (migrateSeqIndex db).tasks = db.tasks ∧
    (migrateSeqIndex db).task_history = db.task_history := by
  unfold migrateSeqIndex
  split <;> simp_all

theorem migrateDecisionTaskId_fields (db : MigDb) :
    (migrateDecisionTaskId db).decisionsHasTaskId = true ∧
    (migrateDecisionTaskId db).projectsHasSlug = db.projectsHasSlug ∧
    (migrateDecisionTaskId db).tasksHasSeq = db.tasksHasSeq ∧
    (migrateDecisionTaskId db).hasTasksSeqIndex = db.hasTasksSeqIndex ∧
    (migrateDecisionTaskId db).tasks = db.tasks ∧
    (migrateDecisionTaskId db).task_history = db.task_history := by
  unfold migrateDecisionTaskId
  split <;> simp_all

theorem migrateHistoryBackfill_fields (db : MigDb) :
    (migrateHistoryBackfill db).projectsHasSlug = db.projectsHasSlug ∧
    (migrateHistoryBackfill db).tasksHasSeq = db.tasksHasSeq ∧
    (migrateHistoryBackfill db).hasTasksSeqIndex = db.hasTasksSeqIndex ∧
    (migrateHistoryBackfill db).decisionsHasTaskId = db.decisionsHasTaskId ∧
    (migrateHistoryBackfill db).tasks = db.tasks := by
  unfold migrateHistoryBackfill
  split <;> simp_all

theorem migrateSlug_id (db : MigDb) (h : db.projectsHasSlug = true) :
    migrateSlug db = db := by
  unfold migrateSlug
  rw [if_pos h]

theorem migrateSeq_id (db : MigDb) (h : db.tasksHasSeq = true) :
    migrateSeq db = db := by
  unfold migrateSeq
  rw [if_pos h]

theorem migrateSeqIndex_id (db : MigDb) (h : db.hasTasksSeqIndex = true) :
    migrateSeqIndex db = db := by
  unfold migrateSeqIndex
  rw [if_pos h]

theorem migrateDecisionTaskId_id (db : MigDb) (h : db.decisionsHasTaskId = true) :
    migrateDecisionTaskId db = db := by
  unfold migrateDecisionTaskId
  rw [if_pos h]

theorem migrateHistoryBackfill_id (db : MigDb)
    (h : db.task_history.length = 0 → db.tasks = []) :
    migrateHistoryBackfill db = db := by
  obtain ⟨f1, f2, f3, f4, ps, ts, ds, hist⟩ := db
  unfold migrateHistoryBackfill
  split
  · next hlen =>
    have hts : ts = [] := h hlen
    subst hts
    simp
  · rfl

theorem runMigrations_flags (db : MigDb) :
    (runMigrations db).projectsHasSlug = true ∧
    (runMigrations db).tasksHasSeq = true ∧
    (runMigrations db).hasTasksSeqIndex = true ∧
    (runMigrations db).decisionsHasTaskId = true := by
  unfold runMigrations
  obtain ⟨h1, -, -, -, -, -⟩ := migrateSlug_fields db
  obtain ⟨g1, g2, -, -, -, -⟩ := migrateSeq_fields (migrateSlug db)
  obtain ⟨i1, i2, i3, -, -, -⟩ := migrateSeqIndex_fields (migrateSeq (migrateSlug db))
  obtain ⟨j1, j2, j3, j4, -, -⟩ :=
    migrateDecisionTaskId_fields (migrateSeqIndex (migrateSeq (migrateSlug db)))
  obtain ⟨k1, k2, k3, k4, -⟩ := migrateHistoryBackfill_fields
    (migrateDecisionTaskId (migrateSeqIndex (migrateSeq (migrateSlug db))))
  refine ⟨?_, ?_, ?_, ?_⟩
  · rw [k1, j2, i2, g2, h1]
  · rw [k2, j3, i3, g1]
  · rw [k3, j4, i1]
  · rw [k4, j1]

theorem runMigrations_history_tasks (db : MigDb) :
    (runMigrations db).task_history.length = 0 → (runMigrations db).tasks = [] := by
  unfold runMigrations
  generalize migrateDecisionTaskId (migrateSeqIndex (migrateSeq (migrateSlug db))) = d4
  unfold migrateHistoryBackfill
  split
  · next hlen =>
    intro h
    simp only [List.length_append, hlen, Nat.zero_add, List.length_map] at h
    simp [List.length_eq_zero.1 h]
  · next hlen =>
    intro h
    exact absurd h hlen

/-- C8: applying the migrations twice leaves the store exactly as applying
them once — after a first run every column/index guard holds and the history
backfill guard can only still fire when there are no tasks to backfill, so
every step of the second run is the identity. -/
theorem spec_C8_migrations_idempotent (db : MigDb) :
    runMigrations (runMigrations db) = runMigrations db := by
  obtain ⟨h1, h2, h3, h4⟩ := runMigrations_flags db
  have h5 := runMigrations_history_tasks db
  show migrateHistoryBackfill (migrateDecisionTaskId (migrateSeqIndex
    (migrateSeq (migrateSlug (runMigrations db))))) = runMigrations db
  rw [migrateSlug_id _ h1, migrateSeq_id _ h2, migrateSeqIndex_id _ h3,
    migrateDecisionTaskId_id _ h4, migrateHistoryBackfill_id _ h5]

theorem length_filter_not_add_countP {α : Type} (p : α → Bool) :
    ∀ l : List α, (l.filter (fun x => !(p x))).length + l.countP p = l.length := by
  intro l
  induction l with
  | nil => simp
  | cons x l ih =>
    rw [List.filter_cons, List.countP_cons]
    cases hp : p x <;> simp [hp] <;> omega

theorem countP_or_split {α : Type} (p q : α → Bool) :
    ∀ l : List α, (∀ x ∈ l, p x = true → q x = false) →
      l.countP (fun x => p x || q x) = l.countP p + l.countP q := by
  intro l
  induction l with
  | nil => intro _; simp
  | cons x l ih =>
    intro hdisj
    have hx := hdisj x (List.mem_cons_self x l)
    have ih' := ih (fun y hy => hdisj y (List.mem_cons_of_mem x hy))
    rw [List.countP_cons, List.countP_cons, List.countP_cons, ih']
    by_cases hp : p x = true
    · have hqf := hx hp
      simp [hp, hqf]
      omega
    · have hp' : p x = false := by
        revert hp
        cases p x <;> simp
      cases hq : q x <;> (simp [hp', hq]; try omega)

theorem countP_id_eq_one :
    ∀ (l : List TaskRow) (tid : String),
      (l.map (fun x => x.id)).Nodup → ∀ t ∈ l, t.id = tid →
        l.countP (fun x => decide (x.id = tid)) = 1 := by
  intro l
  induction l with
  | nil => intro tid _ t ht; cases ht
  | cons y l ih =>
    intro tid hnodup t ht hid
    rw [List.map_cons] at hnodup
    obtain ⟨hny, hnl⟩ := List.nodup_cons.1 hnodup
    rw [List.countP_cons]
    rcases List.mem_cons.1 ht with hty | htl
    · subst hty
      have hzero : l.countP (fun x => decide (x.id = tid)) = 0 := by
        rw [List.countP_eq_zero]
        intro a ha
        simp only [decide_eq_true_eq]
        intro haid
        exact hny (hid ▸ haid ▸ List.mem_map_of_mem (fun x => x.id) ha)
      simp [hzero, hid]
    · have hyne : y.id ≠ tid := by
        intro hy
        exact hny (hy ▸ hid ▸ List.mem_map_of_mem (fun x => x.id) htl)
      have hone := ih tid hnl t htl hid
      simp [hone, hyne]

theorem mem_directSubtaskIds_iff (db : DeleteSlice) (tid : String)
    (hnodup : (db.tasks.map (fun x => x.id)).Nodup) (x : TaskRow) (hx : x ∈ db.tasks) :
    x.id ∈ directSubtaskIds db tid ↔ x.parent_task_id = some tid := by
  unfold directSubtaskIds
  simp only [List.mem_map, List.mem_filter, decide_eq_true_eq]
  constructor
  · rintro ⟨y, ⟨hy, hyp⟩, hid⟩
    have hxy : y = x := List.inj_on_of_nodup_map hnodup hy hx hid
    exact hxy ▸ hyp
  · intro hp
    exact ⟨x, ⟨hx, hp⟩, rfl⟩

theorem foldl_deleteRowsFor (ids : List String) :
    ∀ db : DeleteSlice,
      (ids.foldl deleteRowsFor db).tasks =
        db.tasks.filter (fun t => ¬ t.id ∈ ids) ∧
      (ids.foldl deleteRowsFor db).task_history =
        db.task_history.filter (fun h => ¬ h.task_id ∈ ids) ∧
      (ids.foldl deleteRowsFor db).notes =
        db.notes.filter (fun n => ¬ ∃ i ∈ ids, n.task_id = some i) := by
  induction ids with
  | nil =>
    intro db
    simp
  | cons i ids ih =>
    intro db
    rw [List.foldl_cons]
    obtain ⟨h1, h2, h3⟩ := ih (deleteRowsFor db i)
    refine ⟨?_, ?_, ?_⟩
    · rw [h1]
      show (db.tasks.filter (fun t => t.id ≠ i)).filter (fun t => ¬ t.id ∈ ids) = _
      rw [List.filter_filter]
      apply List.filter_congr
      intro a _
      by_cases ha1 : a.id = i <;> by_cases ha2 : a.id ∈ ids <;> simp [ha1, ha2]
    · rw [h2]
      show (db.task_history.filter (fun h => h.task_id ≠ i)).filter
        (fun h => ¬ h.task_id ∈ ids) = _
      rw [List.filter_filter]
      apply List.filter_congr
      intro a _
      by_cases ha1 : a.task_id = i <;> by_cases ha2 : a.task_id ∈ ids <;> simp [ha1, ha2]
    · rw [h3]
      show (db.notes.filter (fun n => n.task_id ≠ some i)).filter
        (fun n => ¬ ∃ j ∈ ids, n.task_id = some j) = _
      rw [List.filter_filter]
      apply List.filter_congr
      intro a _
      by_cases ha1 : a.task_id = some i <;> simp [ha1]

/-- C9: deleting a task with K direct subtasks removes exactly 1 + K task
rows — precisely those whose id is the target's or whose parent is the
target — together with every history row and every note row referencing any
of the deleted ids, and nothing else; the `db.transaction` wrapper in the
source makes the cascade one atomic state transition, so a reader only ever
observes the pre-state or this post-state. -/
theorem spec_C9_delete_cascade (db : DeleteSlice) (t : TaskRow)
    (hmem : t ∈ db.tasks) (hnodup : (db.tasks.map (fun x => x.id)).Nodup)
    (hself : t.parent_task_id ≠ some t.id) :
    (routesDeleteTask db t.id).tasks.length +
      (1 + (directSubtaskIds db t.id).length) = db.tasks.length ∧
    (∀ x, x ∈ (routesDeleteTask db t.id).tasks ↔
      x ∈ db.tasks ∧ x.id ≠ t.id ∧ x.parent_task_id ≠ some t.id) ∧
    (∀ h, h ∈ (routesDeleteTask db t.id).task_history ↔
      h ∈ db.task_history ∧ h.task_id ≠ t.id ∧
        ¬ h.task_id ∈ directSubtaskIds db t.id) ∧
    (∀ n, n ∈ (routesDeleteTask db t.id).notes ↔
      n ∈ db.notes ∧ n.task_id ≠ some t.id ∧
        ¬ ∃ i ∈ directSubtaskIds db t.id, n.task_id = some i) := by
  have hfindSome : (db.tasks.find? (fun x => x.id = t.id)).isSome :=
    List.find?_isSome.2 ⟨t, hmem, by simp⟩
  obtain ⟨u, hu⟩ := Option.isSome_iff_exists.1 hfindSome
  have hroute : routesDeleteTask db t.id = deleteTaskCascade db t.id := by
    unfold routesDeleteTask
    rw [hu]
  obtain ⟨hT, hH, hN⟩ := foldl_deleteRowsFor (directSubtaskIds db t.id) db
  have htasks : (routesDeleteTask db t.id).tasks =
      (db.tasks.filter (fun x => ¬ x.id ∈ directSubtaskIds db t.id)).filter
        (fun x => x.id ≠ t.id) := by
    rw [hroute]
    show (((directSubtaskIds db t.id).foldl deleteRowsFor db).tasks.filter
      (fun x => x.id ≠ t.id)) = _
    rw [hT]
  have hhist : (routesDeleteTask db t.id).task_history =
      (db.task_history.filter
        (fun h => ¬ h.task_id ∈ directSubtaskIds db t.id)).filter
        (fun h => h.task_id ≠ t.id) := by
    rw [hroute]
    show (((directSubtaskIds db t.id).foldl deleteRowsFor db).task_history.filter
      (fun h => h.task_id ≠ t.id)) = _
    rw [hH]
  have hnotes : (routesDeleteTask db t.id).notes =
      (db.notes.filter
        (fun n => ¬ ∃ i ∈ directSubtaskIds db t.id, n.task_id = some i)).filter
        (fun n => n.task_id ≠ some t.id) := by
    rw [hroute]
    show (((directSubtaskIds db t.id).foldl deleteRowsFor db).notes.filter
      (fun n => n.task_id ≠ some t.id)) = _
    rw [hN]
  refine ⟨?_, ?_, ?_, ?_⟩
  · have hfe : (db.tasks.filter (fun x => ¬ x.id ∈ directSubtaskIds db t.id)).filter
        (fun x => x.id ≠ t.id) =
        db.tasks.filter (fun x =>
          !(decide (x.id = t.id) || decide (x.parent_task_id = some t.id))) := by
      rw [List.filter_filter]
      apply List.filter_congr
      intro x hx
      have hiff := mem_directSubtaskIds_iff db t.id hnodup x hx
      by_cases h1 : x.id = t.id <;> by_cases h2 : x.parent_task_id = some t.id <;>
        simp [h1, h2, hiff]
    have hbal : (db.tasks.filter (fun x =>
        !(decide (x.id = t.id) || decide (x.parent_task_id = some t.id)))).length +
        db.tasks.countP (fun x =>
          decide (x.id = t.id) || decide (x.parent_task_id = some t.id)) =
        db.tasks.length :=
      length_filter_not_add_countP _ db.tasks
    have hsplit : db.tasks.countP (fun x =>
        decide (x.id = t.id) || decide (x.parent_task_id = some t.id)) =
        db.tasks.countP (fun x => decide (x.id = t.id)) +
        db.tasks.countP (fun x => decide (x.parent_task_id = some t.id)) :=
      countP_or_split _ _ db.tasks
      (by
        intro x hx hpx
        simp only [decide_eq_true_eq] at hpx
        have hxt : x = t := List.inj_on_of_nodup_map hnodup hx hmem hpx
        subst hxt
        simp [hself])
    have hone := countP_id_eq_one db.tasks t.id hnodup t hmem rfl
    have hk : db.tasks.countP (fun x => decide (x.parent_task_id = some t.id)) =
        (directSubtaskIds db t.id).length := by
      unfold directSubtaskIds
      rw [List.length_map, List.countP_eq_length_filter]
    have hlen : (routesDeleteTask db t.id).tasks.length =
        (db.tasks.filter (fun x =>
          !(decide (x.id = t.id) || decide (x.parent_task_id = some t.id)))).length := by
      rw [htasks, hfe]
    omega
  · intro x
    rw [htasks]
    simp only [List.mem_filter, decide_eq_true_eq]
    constructor
    · rintro ⟨⟨hxmem, hsub⟩, hid⟩
      exact ⟨hxmem, hid, fun hp =>
        hsub ((mem_directSubtaskIds_iff db t.id hnodup x hxmem).2 hp)⟩
    · rintro ⟨hxmem, hid, hp⟩
      exact ⟨⟨hxmem, fun hsub =>
        hp ((mem_directSubtaskIds_iff db t.id hnodup x hxmem).1 hsub)⟩, hid⟩
  · intro h
    rw [hhist]
    simp only [List.mem_filter, decide_eq_true_eq]
    tauto
  · intro n
    rw [hnotes]
    simp only [List.mem_filter, decide_eq_true_eq]
    tauto

/-- Witness for C9 at a concrete store: deleting the parent of one subtask
removes exactly two of the three task rows. -/
theorem spec_C9_delete_cascade_witness :
    (routesDeleteTask exDelDb "t1").tasks.length +
      (1 + (directSubtaskIds exDelDb "t1").length) = exDelDb.tasks.length :=
  (spec_C9_delete_cascade exDelDb { id := "t1", project_id := "p1" }
    (by decide) (by decide) (by decide)).1

/-- Witness for C8 at a concrete unmigrated store. -/
theorem spec_C8_migrations_idempotent_witness :
    runMigrations (runMigrations exMigDb) = runMigrations exMigDb :=
  spec_C8_migrations_idempotent exMigDb
